import Mathlib

/-!
Verification development for the TSMOM (time-series momentum) pipeline:
price loading, daily returns, momentum, signals, rolling volatility,
vol-scaled strategy returns and performance statistics.

Data tables are modelled column-wise: a column is a `List (Option α)`
(`none` models a pandas missing value / NaN), and a `Frame` carries a
date index, column labels and one data list per column.
-/

namespace TSMOM

/-- A data-frame: date index (dates as sortable integer keys), column
labels, and one column of optional cells per label. -/
structure Frame (α : Type) where
  idx  : List Nat
  cols : List String
  data : List (List (Option α))

/-- Cell of a column at row `t` (`none` when out of range or missing). -/
def cellAt {α : Type} (s : List (Option α)) (t : Nat) : Option α :=
  (s[t]?).getD none

/-- Column `j` of a frame (`[]` when out of range). -/
def colAt {α : Type} (df : Frame α) (j : Nat) : List (Option α) :=
  (df.data[j]?).getD []

/-- Apply a column transformation to every column, keeping index and labels. -/
def Frame.mapCols {α β : Type} (f : List (Option α) → List (Option β))
    (df : Frame α) : Frame β :=
  ⟨df.idx, df.cols, df.data.map f⟩

/-- pandas `shift(1)`: push every cell one row down, first row missing. -/
def shift1 {α : Type} (s : List (Option α)) : List (Option α) :=
  (none :: s).take s.length

/-- One cell of a daily simple return: `p_t / p_(t-1) - 1`, missing when
either price is missing. -/
def retCell (c p : Option ℚ) : Option ℚ :=
  match c, p with
  | some c, some p => some (c / p - 1)
  | _, _ => none

/-- pandas `pct_change()` on one column: elementwise `retCell` against the
column shifted one row down. -/
def pctChange (s : List (Option ℚ)) : List (Option ℚ) :=
  List.zipWith retCell s (shift1 s)

/-- Modelled from the spec: the body of `calculate_returns` in
`src/returns.py` is an unimplemented stub (`raise NotImplementedError`);
this follows spec §4.2 and the docstring: for each asset column,
`r_t = P_t / P_(t-1) - 1`, first row missing, shape/index/columns
preserved. -/
def calculate_returns (prices : Frame ℚ) : Frame ℚ :=
  prices.mapCols pctChange

section Lemmas

variable {α β : Type}

theorem length_shift1 (s : List (Option α)) : (shift1 s).length = s.length := by
  simp [shift1]

theorem getElem?_shift1 (s : List (Option α)) (t : Nat) :
    (shift1 s)[t]? = if t < s.length then (none :: s)[t]? else none := by
  simp [shift1, List.getElem?_take]

theorem cellAt_eq_some {s : List (Option α)} {t : Nat} {v : α}
    (h : cellAt s t = some v) : s[t]? = some (some v) := by
  unfold cellAt at h
  rcases hs : s[t]? with _ | c
  · rw [hs] at h; simp at h
  · rw [hs] at h; simp at h; rw [h]

theorem colAt_mapCols (f : List (Option α) → List (Option β))
    (hf : f [] = []) (df : Frame α) (j : Nat) :
    colAt (df.mapCols f) j = f (colAt df j) := by
  unfold colAt Frame.mapCols
  rcases h : df.data[j]? with _ | s
  · simp [List.getElem?_map, h, hf]
  · simp [List.getElem?_map, h]

theorem pctChange_nil : pctChange [] = [] := rfl

theorem length_pctChange (s : List (Option ℚ)) :
    (pctChange s).length = s.length := by
  simp [pctChange, length_shift1]

theorem retCell_none_right (c : Option ℚ) : retCell c none = none := by
  cases c <;> rfl

end Lemmas

/-- Extract the values of a run of cells when every cell is present. -/
def seqCells {α : Type} : List (Option α) → Option (List α)
  | [] => some []
  | none :: _ => none
  | some x :: xs => (seqCells xs).map (x :: ·)

/-- Trailing window of length `W` ending at row `t` (inclusive). -/
def windowAt {α : Type} (W : Nat) (s : List (Option α)) (t : Nat) :
    List (Option α) :=
  (s.take (t + 1)).drop (t + 1 - W)

/-- pandas `rolling(W).apply(f)` semantics (`min_periods = W`): apply `f`
to each full trailing window of `W` present values, missing otherwise. -/
def rollingApply {α β : Type} (W : Nat) (f : List α → β)
    (s : List (Option α)) : List (Option β) :=
  (List.range s.length).map fun t =>
    if W ≤ t + 1 then (seqCells (windowAt W s t)).map f else none

/-- Compounded growth factor of a list of simple returns. -/
def compound (w : List ℚ) : ℚ :=
  (w.map (fun x => 1 + x)).prod

/-- One column of the momentum signal: the rolling `L`-day compounded
growth, shifted one row down (so day `t` sees only days `< t`), minus 1. -/
def momentumCol (L : Nat) (s : List (Option ℚ)) : List (Option ℚ) :=
  (shift1 (rollingApply L compound s)).map (Option.map (fun x => x - 1))

/-- Modelled from the spec: the body of `calculate_momentum` in
`src/momentum.py` is an unimplemented stub (`raise NotImplementedError`);
this follows spec §4.3 and the docstring: rolling compounded return over
`lookback_days` rows, excluding the current day's return, missing where
history is insufficient. -/
def calculate_momentum (daily_returns : Frame ℚ) (lookback_days : Nat) :
    Frame ℚ :=
  daily_returns.mapCols (momentumCol lookback_days)

section RollingLemmas

variable {α β : Type}

theorem length_rollingApply (W : Nat) (f : List α → β) (s : List (Option α)) :
    (rollingApply W f s).length = s.length := by
  simp [rollingApply]

theorem getElem?_rollingApply (W : Nat) (f : List α → β) (s : List (Option α))
    {t : Nat} (ht : t < s.length) :
    (rollingApply W f s)[t]? =
      some (if W ≤ t + 1 then (seqCells (windowAt W s t)).map f else none) := by
  unfold rollingApply
  rw [List.getElem?_map, List.getElem?_range ht]
  rfl

theorem seqCells_map_some (l : List α) : seqCells (l.map some) = some l := by
  induction l with
  | nil => rfl
  | cons x xs ih => simp [seqCells, ih]

theorem cellAt_map_optionMap (g : α → β) (s : List (Option α)) (t : Nat) :
    cellAt (s.map (Option.map g)) t = (cellAt s t).map g := by
  unfold cellAt
  rw [List.getElem?_map]
  rcases s[t]? with _ | c <;> rfl

theorem cellAt_shift1_zero (s : List (Option α)) :
    cellAt (shift1 s) 0 = none := by
  rcases s with _ | ⟨a, s⟩
  · rfl
  · unfold cellAt
    rw [getElem?_shift1, if_pos (by simp)]
    rfl

theorem cellAt_shift1_succ (s : List (Option α)) (t : Nat)
    (h : t + 1 < s.length) :
    cellAt (shift1 s) (t + 1) = cellAt s t := by
  unfold cellAt
  rw [getElem?_shift1, if_pos h, List.getElem?_cons_succ]

theorem cellAt_none_of_le {s : List (Option α)} {t : Nat}
    (h : s.length ≤ t) : cellAt s t = none := by
  unfold cellAt
  rw [List.getElem?_eq_none h]
  rfl

theorem windowAt_eq_map (W t : Nat) (s : List (Option α)) (v : Nat → α)
    (hW : W ≤ t + 1)
    (hv : ∀ i, i < W → cellAt s (t + 1 - W + i) = some (v i)) :
    windowAt W s t = (List.range W).map (fun i => some (v i)) := by
  apply List.ext_getElem?
  intro i
  unfold windowAt
  rw [List.getElem?_drop, List.getElem?_take, List.getElem?_map]
  by_cases hi : i < W
  · rw [if_pos (by omega), List.getElem?_range hi,
      cellAt_eq_some (hv i hi)]
    rfl
  · rw [if_neg (by omega), List.getElem?_eq_none (by simpa using hi)]
    rfl

end RollingLemmas

/-- C2: `calculate_momentum` with lookback `L > 0` preserves index, labels
and shape; row `t` is the compounded return `∏ (1 + r[k]) - 1` over
`k ∈ [t-L, t-1]` whenever that window is fully present; every row `t < L`
(window not within history) is missing; and when `L ≥` the column length
the whole column is missing. -/
theorem momentum_spec (df : Frame ℚ) (L : Nat) (hL : 0 < L) :
    (calculate_momentum df L).idx = df.idx ∧
    (calculate_momentum df L).cols = df.cols ∧
    (calculate_momentum df L).data.length = df.data.length ∧
    (∀ j, (colAt (calculate_momentum df L) j).length = (colAt df j).length) ∧
    (∀ j t, t < L → cellAt (colAt (calculate_momentum df L) j) t = none) ∧
    (∀ j t, (colAt df j).length ≤ L →
      cellAt (colAt (calculate_momentum df L) j) t = none) ∧
    (∀ j t (v : Nat → ℚ), L ≤ t → t < (colAt df j).length →
      (∀ i, i < L → cellAt (colAt df j) (t - L + i) = some (v i)) →
      cellAt (colAt (calculate_momentum df L) j) t =
        some (((List.range L).map (fun i => 1 + v i)).prod - 1)) := by
  have hnil : momentumCol L [] = [] := rfl
  have hlen : ∀ s : List (Option ℚ), (momentumCol L s).length = s.length := by
    intro s
    simp [momentumCol, length_shift1, length_rollingApply]
  refine ⟨rfl, rfl, by simp [calculate_momentum, Frame.mapCols], ?_, ?_, ?_, ?_⟩
  · intro j
    rw [calculate_momentum, colAt_mapCols _ hnil]
    exact hlen _
  · intro j t htL
    rw [calculate_momentum, colAt_mapCols _ hnil]
    set s := colAt df j with hs
    by_cases htl : t < s.length
    · rw [momentumCol, cellAt_map_optionMap]
      rcases t with _ | t
      · rw [cellAt_shift1_zero]; rfl
      · rw [cellAt_shift1_succ _ _ (by rw [length_rollingApply]; exact htl)]
        unfold cellAt
        rw [getElem?_rollingApply _ _ _ (by omega),
          if_neg (by omega)]
        rfl
    · rw [cellAt_none_of_le (by rw [hlen]; omega)]
  · intro j t hsl
    rw [calculate_momentum, colAt_mapCols _ hnil]
    set s := colAt df j with hs
    by_cases htl : t < s.length
    · rw [momentumCol, cellAt_map_optionMap]
      rcases t with _ | t
      · rw [cellAt_shift1_zero]; rfl
      · rw [cellAt_shift1_succ _ _ (by rw [length_rollingApply]; exact htl)]
        unfold cellAt
        rw [getElem?_rollingApply _ _ _ (by omega),
          if_neg (by omega)]
        rfl
    · rw [cellAt_none_of_le (by rw [hlen]; omega)]
  · intro j t v htL htl hv
    rw [calculate_momentum, colAt_mapCols _ hnil]
    set s := colAt df j with hs
    rw [momentumCol, cellAt_map_optionMap]
    obtain ⟨u, rfl⟩ : ∃ u, t = u + 1 := ⟨t - 1, by omega⟩
    rw [cellAt_shift1_succ _ _ (by rw [length_rollingApply]; exact htl)]
    unfold cellAt
    rw [getElem?_rollingApply _ _ _ (by omega), if_pos (by omega)]
    have hwin : windowAt L s u = (List.range L).map (fun i => some (v i)) := by
      apply windowAt_eq_map _ _ _ _ (by omega)
      intro i hi
      exact hv i hi
    rw [hwin, show (List.range L).map (fun i => some (v i))
        = ((List.range L).map v).map some by rw [List.map_map]; rfl,
      seqCells_map_some]
    simp [compound, List.map_map]
    rfl

/-- Witness for `momentum_spec`: lookback 2 on a four-row column. -/
theorem momentum_spec_witness :
    cellAt (colAt (calculate_momentum
        ⟨[0, 1, 2, 3], ["A"], [[some 1, some 2, some 3, some 4]]⟩ 2) 0) 3
      = some (((List.range 2).map
          (fun i => 1 + (fun k => if k = 0 then (2 : ℚ) else 3) i)).prod - 1) :=
  (momentum_spec ⟨[0, 1, 2, 3], ["A"], [[some 1, some 2, some 3, some 4]]⟩ 2
      (by decide)).2.2.2.2.2.2 0 3 (fun k => if k = 0 then (2 : ℚ) else 3)
    (by decide) (by decide) (by decide)

/-- numpy `sign` on a rational: `+1`, `-1` or `0`. -/
def signum (q : ℚ) : ℚ :=
  if 0 < q then 1 else if q < 0 then -1 else 0

/-- pandas `fillna(v)` on one column: replace missing cells by `v`. -/
def fillna {α : Type} (v : α) (s : List (Option α)) : List (Option α) :=
  s.map (fun c => some (c.getD v))

/-- One column of trading signals: missing momentum treated as 0, then the
elementwise sign. -/
def signalCol (s : List (Option ℚ)) : List (Option ℚ) :=
  (fillna 0 s).map (Option.map signum)

/-- Modelled from the spec: the body of `generate_signals` in
`src/signals.py` is an unimplemented stub (`raise NotImplementedError`);
this follows spec §4.4 and the docstring: momentum `> 0 ↦ +1`,
`< 0 ↦ -1`, zero or missing `↦ 0`, no missing output. -/
def generate_signals (momentum : Frame ℚ) : Frame ℚ :=
  momentum.mapCols signalCol

theorem signalCol_nil : signalCol [] = [] := rfl

theorem length_signalCol (s : List (Option ℚ)) :
    (signalCol s).length = s.length := by
  simp [signalCol, fillna]

theorem cellAt_signalCol (s : List (Option ℚ)) (t : Nat) (ht : t < s.length) :
    cellAt (signalCol s) t = some (signum ((cellAt s t).getD 0)) := by
  unfold signalCol fillna cellAt
  rw [List.map_map, List.getElem?_map]
  rcases hs : s[t]? with _ | c
  · exact absurd ht (by have := List.getElem?_eq_none_iff.mp hs; omega)
  · rfl

/-- C3: `generate_signals` preserves index, labels and shape; strictly
positive momentum maps to `+1`, strictly negative to `-1`, exactly zero to
`0`, and missing momentum to `0`; no in-range output cell is missing. -/
theorem signals_spec (df : Frame ℚ) :
    (generate_signals df).idx = df.idx ∧
    (generate_signals df).cols = df.cols ∧
    (generate_signals df).data.length = df.data.length ∧
    (∀ j, (colAt (generate_signals df) j).length = (colAt df j).length) ∧
    (∀ j t m, cellAt (colAt df j) t = some m → 0 < m →
      cellAt (colAt (generate_signals df) j) t = some 1) ∧
    (∀ j t m, cellAt (colAt df j) t = some m → m < 0 →
      cellAt (colAt (generate_signals df) j) t = some (-1)) ∧
    (∀ j t, cellAt (colAt df j) t = some 0 →
      cellAt (colAt (generate_signals df) j) t = some 0) ∧
    (∀ j t, t < (colAt df j).length → cellAt (colAt df j) t = none →
      cellAt (colAt (generate_signals df) j) t = some 0) ∧
    (∀ j t, t < (colAt df j).length →
      cellAt (colAt (generate_signals df) j) t ≠ none) := by
  have hcol : ∀ j, colAt (generate_signals df) j = signalCol (colAt df j) :=
    fun j => by rw [generate_signals, colAt_mapCols _ signalCol_nil]
  have hbound : ∀ {j t} {m : ℚ}, cellAt (colAt df j) t = some m →
      t < (colAt df j).length := by
    intro j t m h
    have := cellAt_eq_some h
    by_contra hc
    rw [List.getElem?_eq_none (by omega)] at this
    exact Option.noConfusion this
  refine ⟨rfl, rfl, by simp [generate_signals, Frame.mapCols], ?_, ?_, ?_, ?_, ?_, ?_⟩
  · intro j
    rw [hcol]
    exact length_signalCol _
  · intro j t m hm h0
    rw [hcol, cellAt_signalCol _ _ (hbound hm), hm]
    simp [signum, h0]
  · intro j t m hm h0
    rw [hcol, cellAt_signalCol _ _ (hbound hm), hm]
    simp [signum, h0, not_lt_of_lt h0]
  · intro j t hm
    rw [hcol, cellAt_signalCol _ _ (hbound hm), hm]
    simp [signum]
  · intro j t ht hm
    rw [hcol, cellAt_signalCol _ _ ht, hm]
    simp [signum]
  · intro j t ht
    rw [hcol, cellAt_signalCol _ _ ht]
    exact Option.noConfusion

/-- Witness for `signals_spec`: a negative momentum cell maps to `-1`. -/
theorem signals_spec_witness :
    cellAt (colAt (generate_signals
        ⟨[0, 1], ["A"], [[some (-5), none]]⟩) 0) 0 = some (-1) :=
  (signals_spec ⟨[0, 1], ["A"], [[some (-5), none]]⟩).2.2.2.2.2.1 0 0 (-5)
    (by decide) (by decide)

/-- Arithmetic mean of a list of rationals. -/
def listMean (l : List ℚ) : ℚ :=
  l.sum / l.length

/-- Sample variance (`ddof = 1`) of a list of rationals. -/
def sampleVar (l : List ℚ) : ℚ :=
  (l.map (fun x => (x - listMean l) ^ 2)).sum / ((l.length - 1 : Nat) : ℚ)

/-- Annualized realized volatility of one window: sample standard
deviation times `√252`. -/
noncomputable def annVol (l : List ℚ) : ℝ :=
  Real.sqrt (sampleVar l) * Real.sqrt 252

/-- Modelled from the spec: the body of `calculate_volatility` in
`src/strategy.py` is an unimplemented stub (`raise NotImplementedError`);
this follows spec §4.5 and the docstring: trailing `vol_lookback`-row
sample standard deviation annualized by `√252`, missing while the window
is incomplete. -/
noncomputable def calculate_volatility (daily_returns : Frame ℚ)
    (vol_lookback : Nat) : Frame ℝ :=
  daily_returns.mapCols (rollingApply vol_lookback annVol)

theorem sampleVar_nonneg (l : List ℚ) : 0 ≤ sampleVar l := by
  unfold sampleVar
  apply div_nonneg
  · apply List.sum_nonneg
    intro x hx
    rcases List.mem_map.mp hx with ⟨y, _, rfl⟩
    positivity
  · positivity

theorem annVol_nonneg (l : List ℚ) : 0 ≤ annVol l :=
  mul_nonneg (Real.sqrt_nonneg _) (Real.sqrt_nonneg _)

theorem seqCells_eq_some {α : Type} :
    ∀ {l : List (Option α)} {vs : List α},
      seqCells l = some vs → l = vs.map some := by
  intro l
  induction l with
  | nil => intro vs h; simp [seqCells] at h; rw [h]; rfl
  | cons c cs ih =>
    intro vs h
    rcases c with _ | x
    · exact absurd h (by simp [seqCells])
    · rcases hcs : seqCells cs with _ | ws
      · rw [seqCells, hcs] at h; exact absurd h (by simp)
      · rw [seqCells, hcs] at h
        simp at h
        rw [← h, List.map_cons, ih hcs]

/-- C6: `calculate_volatility` with window `W > 0` preserves index, labels
and shape; a row `t` with a full window of `W` present returns holds the
sample standard deviation of `return[t-W+1..t]` times `√252`; rows with
fewer than `W` rows of history, or a missing return inside the window,
are missing; and no present output cell is negative. -/
theorem volatility_spec (df : Frame ℚ) (W : Nat) (hW : 0 < W) :
    (calculate_volatility df W).idx = df.idx ∧
    (calculate_volatility df W).cols = df.cols ∧
    (calculate_volatility df W).data.length = df.data.length ∧
    (∀ j, (colAt (calculate_volatility df W) j).length
      = (colAt df j).length) ∧
    (∀ j t, t + 1 < W → cellAt (colAt (calculate_volatility df W) j) t
      = none) ∧
    (∀ j t i, W ≤ t + 1 → i < W →
      cellAt (colAt df j) (t + 1 - W + i) = none →
      cellAt (colAt (calculate_volatility df W) j) t = none) ∧
    (∀ j t (v : Nat → ℚ), W ≤ t + 1 → t < (colAt df j).length →
      (∀ i, i < W → cellAt (colAt df j) (t + 1 - W + i) = some (v i)) →
      cellAt (colAt (calculate_volatility df W) j) t =
        some (Real.sqrt (sampleVar ((List.range W).map v))
          * Real.sqrt 252)) ∧
    (∀ j t x, cellAt (colAt (calculate_volatility df W) j) t = some x →
      0 ≤ x) := by
  have hnil : rollingApply W annVol ([] : List (Option ℚ)) = [] := rfl
  have hcol : ∀ j, colAt (calculate_volatility df W) j
      = rollingApply W annVol (colAt df j) :=
    fun j => by rw [calculate_volatility, colAt_mapCols _ hnil]
  refine ⟨rfl, rfl, by simp [calculate_volatility, Frame.mapCols],
    ?_, ?_, ?_, ?_, ?_⟩
  · intro j
    rw [hcol]
    exact length_rollingApply _ _ _
  · intro j t ht
    rw [hcol]
    set s := colAt df j with hs
    by_cases htl : t < s.length
    · unfold cellAt
      rw [getElem?_rollingApply _ _ _ htl, if_neg (by omega)]
      rfl
    · exact cellAt_none_of_le (by rw [length_rollingApply]; omega)
  · intro j t i hWt hi hnone
    rw [hcol]
    set s := colAt df j with hs
    by_cases htl : t < s.length
    · unfold cellAt
      rw [getElem?_rollingApply _ _ _ htl, if_pos hWt]
      rcases hseq : seqCells (windowAt W s t) with _ | vs
      · rfl
      · exfalso
        have hwin := seqCells_eq_some hseq
        have hlen : (windowAt W s t).length = W := by
          unfold windowAt
          rw [List.length_drop, List.length_take]
          omega
        have hcell : (windowAt W s t)[i]? = s[t + 1 - W + i]? := by
          unfold windowAt
          rw [List.getElem?_drop, List.getElem?_take, if_pos (by omega)]
        unfold cellAt at hnone
        rcases hr : s[t + 1 - W + i]? with _ | c
        · rw [hr] at hcell
          have := List.getElem?_eq_none_iff.mp hcell
          omega
        · rw [hr] at hnone
          simp at hnone
          rw [hnone] at hr
          rw [hr] at hcell
          have hmem : (none : Option ℚ) ∈ windowAt W s t :=
            List.getElem?_mem hcell
          rw [hwin] at hmem
          rcases List.mem_map.mp hmem with ⟨x, _, hx⟩
          exact Option.noConfusion hx
    · exact cellAt_none_of_le (by rw [length_rollingApply]; omega)
  · intro j t v hWt htl hv
    rw [hcol]
    set s := colAt df j with hs
    unfold cellAt
    rw [getElem?_rollingApply _ _ _ htl, if_pos hWt]
    rw [windowAt_eq_map _ _ _ _ hWt hv,
      show (List.range W).map (fun i => some (v i))
        = ((List.range W).map v).map some by rw [List.map_map]; rfl,
      seqCells_map_some]
    rfl
  · intro j t x hx
    rw [hcol] at hx
    set s := colAt df j with hs
    by_cases htl : t < s.length
    · unfold cellAt at hx
      rw [getElem?_rollingApply _ _ _ htl] at hx
      by_cases hWt : W ≤ t + 1
      · rw [if_pos hWt] at hx
        rcases hseq : seqCells (windowAt W s t) with _ | vs
        · rw [hseq] at hx
          exact absurd hx (by simp)
        · rw [hseq] at hx
          simp at hx
          rw [← hx]
          exact annVol_nonneg vs
      · rw [if_neg hWt] at hx
        exact absurd hx (by simp)
    · rw [cellAt_none_of_le (by rw [length_rollingApply]; omega)] at hx
      exact absurd hx (by simp)

/-- Witness for `volatility_spec`: window 2 over two present returns. -/
theorem volatility_spec_witness :
    cellAt (colAt (calculate_volatility ⟨[0, 1], ["A"], [[some 1, some 3]]⟩ 2) 0) 1
      = some (Real.sqrt (sampleVar ((List.range 2).map
          (fun i => if i = 0 then (1 : ℚ) else 3))) * Real.sqrt 252) :=
  (volatility_spec ⟨[0, 1], ["A"], [[some 1, some 3]]⟩ 2
      (by decide)).2.2.2.2.2.2.1 0 1 (fun i => if i = 0 then (1 : ℚ) else 3)
    (by decide) (by decide) (by decide)

/-- Combine three equally-shaped lists elementwise (truncating at the
shortest, as pandas aligns equally-indexed frames). -/
def zip3 {α : Type} (f : α → α → α → α) : List α → List α → List α → List α
  | a :: as, b :: bs, c :: cs => f a b c :: zip3 f as bs cs
  | _, _, _ => []

/-- One cell of the vol-scaled strategy return:
`signal * (target_vol / lagged_vol) * return`, missing when any of the
three inputs is missing. -/
def stratCell (target_vol : ℚ) (sg v r : Option ℚ) : Option ℚ :=
  match sg, v, r with
  | some sg, some v, some r => some (sg * (target_vol / v) * r)
  | _, _, _ => none

/-- One asset's strategy-return column: elementwise `stratCell` of the
signal column, the volatility column lagged one row, and the return
column. -/
def stratCol (target_vol : ℚ) (sg r v : List (Option ℚ)) :
    List (Option ℚ) :=
  zip3 (stratCell target_vol) sg (shift1 v) r

/-- Row `t` across a list of columns. -/
def rowAt {α : Type} (data : List (List (Option α))) (t : Nat) :
    List (Option α) :=
  data.map (fun s => cellAt s t)

/-- Row-wise mean that skips missing values; missing only when every value
in the row is missing (pandas `mean(axis=1)` with default `skipna`). -/
def meanSkipNone (cs : List (Option ℚ)) : Option ℚ :=
  if cs.filterMap id = [] then none else some (listMean (cs.filterMap id))

/-- The per-asset strategy-return columns of the three input frames. -/
def stratAssets (target_vol : ℚ) (sg r v : Frame ℚ) :
    List (List (Option ℚ)) :=
  zip3 (stratCol target_vol) sg.data r.data v.data

/-- The equal-weight aggregate column over `n` rows of the asset columns. -/
def tsmomCol (n : Nat) (ad : List (List (Option ℚ))) : List (Option ℚ) :=
  (List.range n).map (fun t => meanSkipNone (rowAt ad t))

/-- Modelled from the spec: the body of `calculate_strategy_returns` in
`src/strategy.py` is an unimplemented stub (`raise NotImplementedError`);
this follows spec §4.6 and the docstring: per asset
`signal_t * (target_vol / vol_(t-1)) * r_t` with the volatility lagged one
row, missing when any component is missing, plus an equal-weighted
average column appended under the label `TSMOM`. -/
def calculate_strategy_returns (signals daily_returns volatility : Frame ℚ)
    (target_vol : ℚ) : Frame ℚ :=
  ⟨signals.idx, signals.cols ++ ["TSMOM"],
    stratAssets target_vol signals daily_returns volatility
      ++ [tsmomCol signals.idx.length
            (stratAssets target_vol signals daily_returns volatility)]⟩

/-- Row `t` of the first `k` columns of a frame. -/
def assetRow (df : Frame ℚ) (k t : Nat) : List (Option ℚ) :=
  (List.range k).map (fun j => cellAt (colAt df j) t)

section ZipLemmas

variable {α : Type}

theorem length_zip3 (f : α → α → α → α) :
    ∀ as bs cs : List α,
      (zip3 f as bs cs).length = min (min as.length bs.length) cs.length := by
  intro as
  induction as with
  | nil =>
    intro bs cs
    rcases bs with _ | ⟨b, bs⟩ <;> rcases cs with _ | ⟨c, cs⟩ <;>
      simp [zip3]
  | cons a as ih =>
    intro bs cs
    rcases bs with _ | ⟨b, bs⟩ <;> rcases cs with _ | ⟨c, cs⟩ <;>
      simp [zip3, ih] <;> omega

theorem getElem?_zip3 (f : α → α → α → α) :
    ∀ (as bs cs : List α) (t : Nat) (a b c : α),
      as[t]? = some a → bs[t]? = some b → cs[t]? = some c →
      (zip3 f as bs cs)[t]? = some (f a b c) := by
  intro as
  induction as with
  | nil =>
    intro bs cs t a b c ha
    exact absurd ha (by simp)
  | cons x xs ih =>
    intro bs cs t a b c ha hb hc
    rcases bs with _ | ⟨y, ys⟩
    · exact absurd hb (by simp)
    rcases cs with _ | ⟨z, zs⟩
    · exact absurd hc (by simp)
    rcases t with _ | t
    · simp at ha hb hc
      subst ha
      subst hb
      subst hc
      rw [show zip3 f (x :: xs) (y :: ys) (z :: zs)
          = f x y z :: zip3 f xs ys zs from rfl,
        List.getElem?_cons_zero]
    · rw [List.getElem?_cons_succ] at ha hb hc
      rw [show zip3 f (x :: xs) (y :: ys) (z :: zs)
          = f x y z :: zip3 f xs ys zs from rfl,
        List.getElem?_cons_succ]
      exact ih ys zs t a b c ha hb hc

theorem stratCell_none_sig (tv : ℚ) (v r : Option ℚ) :
    stratCell tv none v r = none := rfl

theorem stratCell_none_vol (tv : ℚ) (sg r : Option ℚ) :
    stratCell tv sg none r = none := by
  cases sg <;> rfl

theorem stratCell_none_ret (tv : ℚ) (sg v : Option ℚ) :
    stratCell tv sg v none = none := by
  cases sg <;> cases v <;> rfl

theorem getElem?_of_lt {l : List α} {t : Nat} (h : t < l.length) :
    l[t]? = some (l.get ⟨t, h⟩) := by
  rw [List.getElem?_eq_getElem h]
  rfl

theorem cellAt_stratCol (tv : ℚ) (sg r v : List (Option ℚ)) (t : Nat)
    (hts : t < sg.length) (htr : t < r.length) (htv : t < v.length) :
    cellAt (stratCol tv sg r v) t
      = stratCell tv (cellAt sg t) (cellAt (shift1 v) t) (cellAt r t) := by
  have hsv : t < (shift1 v).length := by rw [length_shift1]; exact htv
  unfold cellAt stratCol
  rw [getElem?_zip3 (stratCell tv) sg (shift1 v) r t _ _ _
      (getElem?_of_lt hts) (getElem?_of_lt hsv) (getElem?_of_lt htr),
    getElem?_of_lt hts, getElem?_of_lt hsv, getElem?_of_lt htr]
  rfl

end ZipLemmas

/-- C1: for equally-shaped signal, return and volatility frames,
`calculate_strategy_returns` keeps the index; asset cell `(j, t)` equals
`signal[t] * (target_vol / volatility[t-1]) * return[t]`, sized by the
previous day's volatility; and whenever `signal[t]`, `return[t]` or
`volatility[t-1]` is missing (in particular on row 0, which has no
previous day), the strategy return is missing. -/
theorem strategy_returns_spec (sg r v : Frame ℚ) (tv : ℚ) (j t : Nat)
    (hj : j < sg.data.length)
    (hdr : r.data.length = sg.data.length)
    (hdv : v.data.length = sg.data.length)
    (hcr : (colAt r j).length = (colAt sg j).length)
    (hcv : (colAt v j).length = (colAt sg j).length)
    (ht : t < (colAt sg j).length) :
    (calculate_strategy_returns sg r v tv).idx = sg.idx ∧
    (∀ a b c, 1 ≤ t →
      cellAt (colAt sg j) t = some a →
      cellAt (colAt r j) t = some b →
      cellAt (colAt v j) (t - 1) = some c →
      cellAt (colAt (calculate_strategy_returns sg r v tv) j) t
        = some (a * (tv / c) * b)) ∧
    (cellAt (colAt sg j) t = none →
      cellAt (colAt (calculate_strategy_returns sg r v tv) j) t = none) ∧
    (cellAt (colAt r j) t = none →
      cellAt (colAt (calculate_strategy_returns sg r v tv) j) t = none) ∧
    (1 ≤ t → cellAt (colAt v j) (t - 1) = none →
      cellAt (colAt (calculate_strategy_returns sg r v tv) j) t = none) ∧
    (t = 0 →
      cellAt (colAt (calculate_strategy_returns sg r v tv) j) t = none) := by
  have hjs : sg.data[j]? = some (colAt sg j) := by
    unfold colAt
    rw [getElem?_of_lt hj]
    rfl
  have hjr : r.data[j]? = some (colAt r j) := by
    unfold colAt
    rw [getElem?_of_lt (show j < r.data.length by omega)]
    rfl
  have hjv : v.data[j]? = some (colAt v j) := by
    unfold colAt
    rw [getElem?_of_lt (show j < v.data.length by omega)]
    rfl
  have hadlen : (stratAssets tv sg r v).length = sg.data.length := by
    unfold stratAssets
    rw [length_zip3]
    omega
  have hout : colAt (calculate_strategy_returns sg r v tv) j
      = stratCol tv (colAt sg j) (colAt r j) (colAt v j) := by
    show (((stratAssets tv sg r v
        ++ [tsmomCol sg.idx.length (stratAssets tv sg r v)])[j]?).getD [])
      = stratCol tv (colAt sg j) (colAt r j) (colAt v j)
    rw [List.getElem?_append, if_pos (by omega),
      show stratAssets tv sg r v
        = zip3 (stratCol tv) sg.data r.data v.data from rfl,
      getElem?_zip3 (stratCol tv) sg.data r.data v.data j _ _ _ hjs hjr hjv]
    rfl
  have hcell : cellAt (colAt (calculate_strategy_returns sg r v tv) j) t
      = stratCell tv (cellAt (colAt sg j) t)
          (cellAt (shift1 (colAt v j)) t) (cellAt (colAt r j) t) := by
    rw [hout]
    exact cellAt_stratCol tv _ _ _ t ht (by omega) (by omega)
  refine ⟨rfl, ?_, ?_, ?_, ?_, ?_⟩
  · intro a b c ht1 ha hb hc
    obtain ⟨u, rfl⟩ : ∃ u, t = u + 1 := ⟨t - 1, by omega⟩
    rw [hcell, ha, hb, cellAt_shift1_succ _ _ (by omega)]
    simp only [Nat.add_sub_cancel] at hc
    rw [hc]
    rfl
  · intro ha
    rw [hcell, ha, stratCell_none_sig]
  · intro hb
    rw [hcell, hb, stratCell_none_ret]
  · intro ht1 hc
    obtain ⟨u, rfl⟩ : ∃ u, t = u + 1 := ⟨t - 1, by omega⟩
    rw [hcell, cellAt_shift1_succ _ _ (by omega)]
    simp only [Nat.add_sub_cancel] at hc
    rw [hc, stratCell_none_vol]
  · intro ht0
    subst ht0
    rw [hcell, cellAt_shift1_zero, stratCell_none_vol]

/-- Witness for `strategy_returns_spec` on two-row single-asset frames. -/
theorem strategy_returns_spec_witness :
    cellAt (colAt (calculate_strategy_returns
        ⟨[0, 1], ["A"], [[some 1, some 1]]⟩
        ⟨[0, 1], ["A"], [[some 2, some 3]]⟩
        ⟨[0, 1], ["A"], [[some 4, some 5]]⟩ (1/10)) 0) 1
      = some ((1 : ℚ) * ((1/10) / 4) * 3) :=
  (strategy_returns_spec ⟨[0, 1], ["A"], [[some 1, some 1]]⟩
      ⟨[0, 1], ["A"], [[some 2, some 3]]⟩
      ⟨[0, 1], ["A"], [[some 4, some 5]]⟩ (1/10) 0 1
      (by decide) (by decide) (by decide) (by decide) (by decide)
      (by decide)).2.1 1 3 4
    (by decide) (by decide) (by decide) (by decide)

/-- C7: `calculate_strategy_returns` appends exactly one aggregate column,
under the fixed label `TSMOM` (occurring once, hence distinct from every
asset label, whenever no asset is itself named `TSMOM`); for each row the
aggregate is the equal-weighted mean of the present asset strategy
returns — missing when every asset value in the row is missing, and
otherwise averaging only the present values (missing values excluded from
numerator and denominator alike). -/
theorem strategy_tsmom_spec (sg r v : Frame ℚ) (tv : ℚ)
    (hdr : r.data.length = sg.data.length)
    (hdv : v.data.length = sg.data.length) :
    (calculate_strategy_returns sg r v tv).cols = sg.cols ++ ["TSMOM"] ∧
    ("TSMOM" ∉ sg.cols →
      (calculate_strategy_returns sg r v tv).cols.count "TSMOM" = 1) ∧
    (calculate_strategy_returns sg r v tv).data.length
      = sg.data.length + 1 ∧
    (∀ t, t < sg.idx.length →
      ((assetRow (calculate_strategy_returns sg r v tv)
          sg.data.length t).filterMap id = [] →
        cellAt (colAt (calculate_strategy_returns sg r v tv)
          sg.data.length) t = none) ∧
      (∀ vs, (assetRow (calculate_strategy_returns sg r v tv)
          sg.data.length t).filterMap id = vs → vs ≠ [] →
        cellAt (colAt (calculate_strategy_returns sg r v tv)
          sg.data.length) t = some (vs.sum / (vs.length : ℚ)))) := by
  have hadlen : (stratAssets tv sg r v).length = sg.data.length := by
    unfold stratAssets
    rw [length_zip3]
    omega
  have hcolk : colAt (calculate_strategy_returns sg r v tv) sg.data.length
      = tsmomCol sg.idx.length (stratAssets tv sg r v) := by
    have hk : (stratAssets tv sg r v ++ [tsmomCol sg.idx.length (stratAssets tv sg r v)])[sg.data.length]? = some (tsmomCol sg.idx.length (stratAssets tv sg r v)) := by
      rw [List.getElem?_append, if_neg (by omega),
        show sg.data.length - (stratAssets tv sg r v).length = 0 by omega,
        List.getElem?_cons_zero]
    show ((stratAssets tv sg r v ++ [tsmomCol sg.idx.length (stratAssets tv sg r v)])[sg.data.length]?).getD [] = tsmomCol sg.idx.length (stratAssets tv sg r v)
    rw [hk]
    rfl
  have hrow : ∀ t, rowAt (stratAssets tv sg r v) t
      = assetRow (calculate_strategy_returns sg r v tv) sg.data.length t := by
    intro t
    apply List.ext_getElem?
    intro i
    unfold rowAt assetRow
    rw [List.getElem?_map, List.getElem?_map]
    by_cases hi : i < sg.data.length
    · rw [List.getElem?_range hi,
        getElem?_of_lt (show i < (stratAssets tv sg r v).length by omega)]
      have hcol : colAt (calculate_strategy_returns sg r v tv) i
          = (stratAssets tv sg r v).get ⟨i, by omega⟩ := by
        show ((stratAssets tv sg r v ++ [tsmomCol sg.idx.length (stratAssets tv sg r v)])[i]?).getD [] = (stratAssets tv sg r v).get ⟨i, by omega⟩
        rw [List.getElem?_append, if_pos (by omega),
          getElem?_of_lt (show i < (stratAssets tv sg r v).length by omega)]
        rfl
      simp only [Option.map_some']
      rw [hcol]
    · rw [List.getElem?_eq_none
          (show (stratAssets tv sg r v).length ≤ i by omega),
        List.getElem?_eq_none
          (show (List.range sg.data.length).length ≤ i by
            rw [List.length_range]; omega)]
      rfl
  have hcell : ∀ t, t < sg.idx.length →
      cellAt (colAt (calculate_strategy_returns sg r v tv) sg.data.length) t
        = meanSkipNone (rowAt (stratAssets tv sg r v) t) := by
    intro t ht
    rw [hcolk]
    unfold tsmomCol cellAt
    rw [List.getElem?_map, List.getElem?_range ht]
    rfl
  refine ⟨rfl, ?_, ?_, ?_⟩
  · intro h
    show (sg.cols ++ ["TSMOM"]).count "TSMOM" = 1
    simp [List.count_append, List.count_eq_zero.mpr h]
  · show (stratAssets tv sg r v
      ++ [tsmomCol sg.idx.length (stratAssets tv sg r v)]).length
        = sg.data.length + 1
    rw [List.length_append, hadlen]
    rfl
  · intro t ht
    constructor
    · intro hempty
      rw [hcell t ht]
      unfold meanSkipNone
      rw [if_pos (by rw [hrow t]; exact hempty)]
    · intro vs hvs hne
      rw [hcell t ht]
      unfold meanSkipNone
      rw [hrow t, hvs, if_neg hne]
      rfl

/-- Witness for `strategy_tsmom_spec`: a row whose only asset value is
missing yields a missing aggregate. -/
theorem strategy_tsmom_spec_witness :
    cellAt (colAt (calculate_strategy_returns
        ⟨[0, 1], ["A"], [[some 1, none]]⟩
        ⟨[0, 1], ["A"], [[some 2, some 3]]⟩
        ⟨[0, 1], ["A"], [[some 4, some 5]]⟩ (1/10)) 1) 1 = none :=
  ((strategy_tsmom_spec ⟨[0, 1], ["A"], [[some 1, none]]⟩
      ⟨[0, 1], ["A"], [[some 2, some 3]]⟩
      ⟨[0, 1], ["A"], [[some 4, some 5]]⟩ (1/10)
      (by decide) (by decide)).2.2.2 1 (by decide)).1 (by decide)

/-- pandas `dropna()` on one series: keep only the present values. -/
def dropna (s : List (Option ℚ)) : List ℚ :=
  s.filterMap id

/-- The three performance statistics. -/
structure Perf where
  annualized_return : ℚ
  annualized_volatility : ℝ
  sharpe : ℝ

/-- Modelled from the spec: the body of `calculate_performance` in
`src/performance.py` is an unimplemented stub (`raise NotImplementedError`);
this follows spec §4.7 and the docstring: drop missing values, then
`mean * 252`, sample standard deviation times `√252`, and their ratio,
failing (per §7, `DegenerateInput`) on an empty series or on zero
annualized volatility. -/
noncomputable def calculate_performance (daily_returns : List (Option ℚ)) :
    Except String Perf :=
  if dropna daily_returns = [] then
    Except.error "DegenerateInput: empty return series"
  else if sampleVar (dropna daily_returns) = 0 then
    Except.error "DegenerateInput: zero volatility"
  else
    Except.ok ⟨listMean (dropna daily_returns) * 252,
      annVol (dropna daily_returns),
      ((listMean (dropna daily_returns) * 252 : ℚ) : ℝ)
        / annVol (dropna daily_returns)⟩

theorem annVol_eq_zero_iff (l : List ℚ) : annVol l = 0 ↔ sampleVar l = 0 := by
  unfold annVol
  constructor
  · intro h
    rcases mul_eq_zero.mp h with h1 | h2
    · have hle : ((sampleVar l : ℚ) : ℝ) ≤ 0 := Real.sqrt_eq_zero'.mp h1
      have h0 : (0 : ℚ) ≤ sampleVar l := sampleVar_nonneg l
      have : ((sampleVar l : ℚ) : ℝ) = 0 := le_antisymm hle (by exact_mod_cast h0)
      exact_mod_cast this
    · exfalso
      have hpos : (0 : ℝ) < Real.sqrt 252 := Real.sqrt_pos.mpr (by norm_num)
      rw [h2] at hpos
      exact lt_irrefl _ hpos
  · intro h
    rw [h]
    simp

/-- C4: `calculate_performance` fails exactly when the series is empty
after dropping missing values or when the annualized volatility
(sample standard deviation times `√252`) is zero; on every other series
it succeeds and returns the three statistics (finite by construction,
being rational/real values). -/
theorem performance_error_spec (s : List (Option ℚ)) :
    ((∃ e, calculate_performance s = Except.error e) ↔
      (dropna s = [] ∨ annVol (dropna s) = 0)) ∧
    ((∃ p, calculate_performance s = Except.ok p) ↔
      (dropna s ≠ [] ∧ annVol (dropna s) ≠ 0)) := by
  unfold calculate_performance
  by_cases h1 : dropna s = []
  · rw [if_pos h1]
    constructor
    · exact ⟨fun _ => Or.inl h1, fun _ => ⟨_, rfl⟩⟩
    · constructor
      · rintro ⟨p, hp⟩
        exact Except.noConfusion hp
      · rintro ⟨hne, _⟩
        exact absurd h1 hne
  · rw [if_neg h1]
    by_cases h2 : sampleVar (dropna s) = 0
    · rw [if_pos h2]
      constructor
      · exact ⟨fun _ => Or.inr ((annVol_eq_zero_iff _).mpr h2), fun _ => ⟨_, rfl⟩⟩
      · constructor
        · rintro ⟨p, hp⟩
          exact Except.noConfusion hp
        · rintro ⟨_, hv⟩
          exact absurd ((annVol_eq_zero_iff _).mpr h2) hv
    · rw [if_neg h2]
      constructor
      · constructor
        · rintro ⟨e, he⟩
          exact Except.noConfusion he
        · rintro (h | h)
          · exact absurd h h1
          · exact absurd ((annVol_eq_zero_iff _).mp h) h2
      · exact ⟨fun _ => ⟨h1, fun hv => h2 ((annVol_eq_zero_iff _).mp hv)⟩,
          fun _ => ⟨_, rfl⟩⟩

/-- Witness for `performance_error_spec`: the empty series fails. -/
theorem performance_error_spec_witness :
    ∃ e, calculate_performance [] = Except.error e :=
  (performance_error_spec []).1.mpr (Or.inl rfl)

/-- C8: on a series that is non-empty and has nonzero sample standard
deviation once missing values are dropped, `calculate_performance` drops
the missing values and returns `annualized_return = mean * 252`,
`annualized_volatility = sample std * √252`, and their ratio as the
Sharpe ratio, all computed from the retained values only. -/
theorem performance_value_spec (s : List (Option ℚ))
    (h1 : dropna s ≠ [])
    (h2 : Real.sqrt (sampleVar (dropna s)) ≠ 0) :
    calculate_performance s =
      Except.ok ⟨listMean (dropna s) * 252,
        annVol (dropna s),
        ((listMean (dropna s) * 252 : ℚ) : ℝ) / annVol (dropna s)⟩ := by
  have hv : sampleVar (dropna s) ≠ 0 := by
    intro h0
    apply h2
    rw [h0]
    simp
  unfold calculate_performance
  rw [if_neg h1, if_neg hv]

/-- Witness for `performance_value_spec` on `[1, missing, 3]`. -/
theorem performance_value_spec_witness :
    calculate_performance [some 1, none, some 3] =
      Except.ok ⟨listMean (dropna [some 1, none, some 3]) * 252,
        annVol (dropna [some 1, none, some 3]),
        ((listMean (dropna [some 1, none, some 3]) * 252 : ℚ) : ℝ)
          / annVol (dropna [some 1, none, some 3])⟩ :=
  performance_value_spec [some 1, none, some 3]
    (by decide)
    (by
      have hd : dropna [some 1, none, some 3] = [1, 3] := by decide
      have h : sampleVar (dropna [some 1, none, some 3]) = 2 := by
        rw [hd]
        norm_num [sampleVar, listMean]
      rw [h]
      exact ne_of_gt (Real.sqrt_pos.mpr (by norm_num)))

/-- C5: `calculate_returns` preserves index, column labels, column count and
every column's length; the first row of every column is missing; and for
every row `t ≥ 1` with both prices present, the output cell is
`price[t] / price[t-1] - 1`. -/
theorem returns_spec (df : Frame ℚ) :
    (calculate_returns df).idx = df.idx ∧
    (calculate_returns df).cols = df.cols ∧
    (calculate_returns df).data.length = df.data.length ∧
    (∀ j, (colAt (calculate_returns df) j).length = (colAt df j).length) ∧
    (∀ j, cellAt (colAt (calculate_returns df) j) 0 = none) ∧
    (∀ j t c p, 1 ≤ t →
      cellAt (colAt df j) t = some c →
      cellAt (colAt df j) (t - 1) = some p →
      cellAt (colAt (calculate_returns df) j) t = some (c / p - 1)) := by
  refine ⟨rfl, rfl, by simp [calculate_returns, Frame.mapCols], ?_, ?_, ?_⟩
  · intro j
    rw [calculate_returns, colAt_mapCols pctChange pctChange_nil]
    exact length_pctChange _
  · intro j
    rw [calculate_returns, colAt_mapCols pctChange pctChange_nil]
    set s := colAt df j with hs
    unfold cellAt pctChange
    rw [List.getElem?_zipWith, getElem?_shift1]
    rcases s with _ | ⟨a, s⟩
    · simp
    · simp [retCell_none_right]
  · intro j t c p ht hc hp
    rw [calculate_returns, colAt_mapCols pctChange pctChange_nil]
    set s := colAt df j with hs
    have hc' : s[t]? = some (some c) := cellAt_eq_some hc
    have hp' : s[t - 1]? = some (some p) := cellAt_eq_some hp
    have htl : t < s.length := by
      by_contra hlt
      rw [List.getElem?_eq_none (by omega)] at hc'
      exact Option.noConfusion hc'
    unfold cellAt pctChange
    rw [List.getElem?_zipWith, getElem?_shift1, if_pos htl]
    obtain ⟨t, rfl⟩ : ∃ u, t = u + 1 := ⟨t - 1, by omega⟩
    rw [List.getElem?_cons_succ]
    simp only [Nat.add_sub_cancel] at hp'
    rw [hc', hp']
    rfl

/-- Witness for `returns_spec` at a concrete two-row, one-column frame. -/
theorem returns_spec_witness :
    cellAt (colAt (calculate_returns ⟨[0, 1], ["A"], [[some 2, some 3]]⟩) 0) 1
      = some ((3 : ℚ) / 2 - 1) :=
  (returns_spec ⟨[0, 1], ["A"], [[some 2, some 3]]⟩).2.2.2.2.2 0 1 3 2
    (by decide) (by decide) (by decide)

/-- The raw input file: a header row and one record per line, each a date
field and one text field per remaining column. -/
structure RawFile where
  header  : List String
  records : List (String × List String)

/-- Numeric value of a decimal digit character. -/
def digitVal (c : Char) : Option Nat :=
  if '0' ≤ c ∧ c ≤ '9' then some (c.toNat - '0'.toNat) else none

/-- Parse a run of decimal digits, accumulating left to right. -/
def parseNatCore : List Char → Nat → Option Nat
  | [], acc => some acc
  | c :: cs, acc =>
    match digitVal c with
    | some d => parseNatCore cs (acc * 10 + d)
    | none => none

/-- Parse a nonempty decimal numeral. -/
def parseNat (s : String) : Option Nat :=
  match s.toList with
  | [] => none
  | cs => parseNatCore cs 0

/-- Parse a date key (dates modelled as sortable integer keys in text). -/
def parseDate (s : String) : Option Nat :=
  parseNat s

/-- Parse a numeric price field (prices modelled as numeric text coerced
to rationals). -/
def parsePrice (s : String) : Option ℚ :=
  (parseNat s).map (fun n => (n : ℚ))

/-- Parse one record against an expected number `k` of asset columns. -/
def parseRecord (k : Nat) (rec : String × List String) :
    Option (Nat × List ℚ) :=
  match parseDate rec.1, seqCells (rec.2.map parsePrice) with
  | some d, some ps => if ps.length = k then some (d, ps) else none
  | _, _ => none

/-- Insert a parsed record into a date-sorted list. -/
def insertRow (x : Nat × List ℚ) :
    List (Nat × List ℚ) → List (Nat × List ℚ)
  | [] => [x]
  | y :: ys => if x.1 ≤ y.1 then x :: y :: ys else y :: insertRow x ys

/-- Sort parsed records by ascending date key (insertion sort). -/
def sortRows : List (Nat × List ℚ) → List (Nat × List ℚ)
  | [] => []
  | x :: xs => insertRow x (sortRows xs)

/-- Modelled from the spec: the body of `read_data` in `src/io.py` is an
unimplemented stub (`raise NotImplementedError`); this follows spec §4.1
and §6: a delimited table whose header row is `Date` followed by one
label per asset, whatever their number and names; the date column becomes
the sorted index, every remaining column is coerced to a numeric price
column, and a malformed header, date, or price is a `DataLoad` error. -/
def read_data (file : RawFile) : Except String (Frame ℚ) :=
  if file.header.head? = some "Date" then
    match seqCells (file.records.map (parseRecord file.header.tail.length)) with
    | some rows =>
      Except.ok ⟨(sortRows rows).map Prod.fst, file.header.tail,
        (List.range file.header.tail.length).map
          (fun j => (sortRows rows).map
            (fun row => some ((row.2[j]?).getD 0)))⟩
    | none => Except.error "DataLoad: malformed record"
  else Except.error "DataLoad: missing Date column"

/-- C9: on every well-formed input file — header `Date :: assets` with
every record parsing — `read_data` succeeds and the resulting price
table's asset columns are exactly the non-date columns of the file,
whatever their number and names (one data column per asset label; no
hardcoded count). -/
theorem read_data_spec (file : RawFile) (assets : List String)
    (rows : List (Nat × List ℚ))
    (hh : file.header = "Date" :: assets)
    (hr : seqCells (file.records.map (parseRecord assets.length))
      = some rows) :
    ∃ df, read_data file = Except.ok df ∧ df.cols = assets ∧
      df.data.length = assets.length ∧
      df.cols.length = file.header.length - 1 := by
  unfold read_data
  rw [hh]
  simp only [List.head?_cons, List.tail_cons, if_pos rfl]
  rw [hr]
  exact ⟨_, rfl, rfl, by simp, by simp⟩

/-- Witness for `read_data_spec` on a two-asset, two-record file. -/
theorem read_data_spec_witness :
    ∃ df, read_data ⟨["Date", "X", "YY"],
        [("2", ["10", "20"]), ("1", ["30", "40"])]⟩ = Except.ok df ∧
      df.cols = ["X", "YY"] ∧ df.data.length = (["X", "YY"] : List String).length ∧
      df.cols.length = (["Date", "X", "YY"] : List String).length - 1 :=
  read_data_spec ⟨["Date", "X", "YY"],
      [("2", ["10", "20"]), ("1", ["30", "40"])]⟩ ["X", "YY"]
    [(2, [10, 20]), (1, [30, 40])] (by decide) (by decide)

namespace Stub

/-- The shipped body of `read_data` (`src/io.py`): it unconditionally
raises `NotImplementedError`, modelled as an error value. -/
def read_data (filepath : String) : Except String (Frame ℚ) :=
  Except.error "NotImplementedError: Implement read_data"

/-- The shipped body of `calculate_returns` (`src/returns.py`). -/
def calculate_returns (prices : Frame ℚ) : Except String (Frame ℚ) :=
  Except.error "NotImplementedError: Implement calculate_returns"

/-- The shipped body of `calculate_momentum` (`src/momentum.py`). -/
def calculate_momentum (daily_returns : Frame ℚ) (lookback_days : Nat) :
    Except String (Frame ℚ) :=
  Except.error "NotImplementedError: Implement calculate_momentum"

/-- The shipped body of `generate_signals` (`src/signals.py`). -/
def generate_signals (momentum : Frame ℚ) : Except String (Frame ℚ) :=
  Except.error "NotImplementedError: Implement generate_signals"

/-- The shipped body of `calculate_volatility` (`src/strategy.py`). -/
def calculate_volatility (daily_returns : Frame ℚ) (vol_lookback : Nat) :
    Except String (Frame ℚ) :=
  Except.error "NotImplementedError: Implement calculate_volatility"

/-- The shipped body of `calculate_strategy_returns` (`src/strategy.py`). -/
def calculate_strategy_returns (signals daily_returns volatility : Frame ℚ)
    (target_vol : ℚ) : Except String (Frame ℚ) :=
  Except.error "NotImplementedError: Implement calculate_strategy_returns"

/-- The shipped body of `calculate_performance` (`src/performance.py`). -/
def calculate_performance (daily_returns : List (Option ℚ)) :
    Except String Perf :=
  Except.error "NotImplementedError: Implement calculate_performance"

/-- Column of a frame by label, as `strategy_returns["TSMOM"]` in
`hw1.py`. -/
def getCol (df : Frame ℚ) (label : String) : List (Option ℚ) :=
  ((df.data)[df.cols.indexOf label]?).getD []

/-- The `run_pipeline` orchestration of `hw1.py`, wired over the shipped
stubs: load, returns, momentum, signals, volatility, strategy returns,
then performance of the `TSMOM` column. -/
def run_pipeline (lookback_days : Nat) (data_path : String) :
    Except String Perf := do
  let daily_prices ← read_data data_path
  let daily_returns ← calculate_returns daily_prices
  let momentum ← calculate_momentum daily_returns lookback_days
  let signals ← generate_signals momentum
  let volatility ← calculate_volatility daily_returns lookback_days
  let strategy_returns ← calculate_strategy_returns signals daily_returns
    volatility (1/10)
  let performance ← calculate_performance (getCol strategy_returns "TSMOM")
  pure performance

end Stub

/-- C10: in the code as shipped, every core pipeline function is an
unconditional `NotImplementedError` stub — each errors on every input —
and consequently `run_pipeline` fails (with the first stage's
`NotImplementedError`) and never returns a performance dictionary, for
every lookback and data path. -/
theorem stub_pipeline_spec :
    (∀ p, Stub.read_data p
      = Except.error "NotImplementedError: Implement read_data") ∧
    (∀ df, Stub.calculate_returns df
      = Except.error "NotImplementedError: Implement calculate_returns") ∧
    (∀ df L, Stub.calculate_momentum df L
      = Except.error "NotImplementedError: Implement calculate_momentum") ∧
    (∀ df, Stub.generate_signals df
      = Except.error "NotImplementedError: Implement generate_signals") ∧
    (∀ df W, Stub.calculate_volatility df W
      = Except.error "NotImplementedError: Implement calculate_volatility") ∧
    (∀ sg r v tv, Stub.calculate_strategy_returns sg r v tv
      = Except.error "NotImplementedError: Implement calculate_strategy_returns") ∧
    (∀ s, Stub.calculate_performance s
      = Except.error "NotImplementedError: Implement calculate_performance") ∧
    (∀ L path, Stub.run_pipeline L path
      = Except.error "NotImplementedError: Implement read_data") :=
  ⟨fun _ => rfl, fun _ => rfl, fun _ _ => rfl, fun _ => rfl, fun _ _ => rfl,
    fun _ _ _ _ => rfl, fun _ => rfl, fun _ _ => rfl⟩

end TSMOM
